import Mathlib

/-!
Shallow embedding of `src/analyze_health_data.py`, a four-stage batch
pipeline (load, aggregate, classify, report) over health-sensor CSV rows.

Modelling conventions:
- Text is processed as `List Char` with structural splitting functions, so
  every stage is executable by kernel reduction.
- NumPy `float64` values are modelled exactly as rationals, including the
  binary rounding: the mean of an integer column is the exact ratio
  `sum / length` rounded to the nearest binary64 value (53 significant
  bits, ties to even), computed by exact integer arithmetic, and `%.1f`
  then rounds the exact value of that double to tenths, ties to even, as
  CPython's correctly-rounded formatting does.  The column sum itself is
  taken exactly (float64 summation of `i4` data is exact until a partial
  sum reaches `2 ^ 53`, unreachable territory that the unbounded-integer
  model of `i4` already glosses over), and the finite exponent range of
  binary64 is not modelled (a mean of `i4` values can neither overflow
  nor go subnormal).  NaN (the mean of an empty column) is kept as a
  separate case rendered `"nan"`.
- A file system is a map from path to optional file contents; writing in
  mode `w` creates or truncates, modelled as a pointwise update.
- `np.genfromtxt` (called with an explicit structured dtype and default
  keyword arguments) is modelled from its documented semantics: the first
  `skip_header` lines are discarded, blank lines are skipped, a row whose
  comma-split field count differs from the field count of the dtype makes
  the whole load raise `ValueError` (`invalid_raise=True`), and a field
  that its column converter cannot convert is replaced by the column
  filling value (`loose=True`): `-1` for integer columns, NaN for float
  columns.  String columns are truncated to the dtype width (`U10`/`U20`).
- The `f4` temperature column is recorded as the parsed decimal literal
  `(mantissa, fractionalDigits)` with value `mantissa / 10 ^
  fractionalDigits`, or `none` for the NaN filling value; it is loaded but
  unused downstream.
-/

set_option maxRecDepth 40000

namespace HealthData

/-- Split a character list at every occurrence of `sep`, keeping empty
segments, like `str.split(sep)` for a one-character separator. -/
def splitSep (sep : Char) : List Char → List (List Char)
  | [] => [[]]
  | c :: rest =>
    match splitSep sep rest with
    | [] => [[]]
    | g :: gs => if c = sep then [] :: g :: gs else (c :: g) :: gs

/-- Numeric value of a decimal digit character. -/
def digitVal (c : Char) : Nat := c.toNat - 48

/-- Parse a non-empty all-digit character list as a natural number. -/
def parseDigits? (cs : List Char) : Option Nat :=
  if cs ≠ [] ∧ cs.all Char.isDigit then
    some (cs.foldl (fun a c => a * 10 + digitVal c) 0)
  else none

/-- Python `int(s)` on an optionally signed decimal literal, the integer
column converter of `np.genfromtxt`. -/
def pyInt? : List Char → Option Int
  | '-' :: rest => (parseDigits? rest).map (fun n => -(n : Int))
  | '+' :: rest => (parseDigits? rest).map (fun n => (n : Int))
  | cs => (parseDigits? cs).map (fun n => (n : Int))

/-- Unsigned decimal literal `digits[.digits]`, returned as
`(mantissa, fractionalDigits)`. -/
def pyFloatNonneg? (cs : List Char) : Option (Int × Nat) :=
  match splitSep '.' cs with
  | [a] => (parseDigits? a).map (fun n => ((n : Int), 0))
  | [a, b] =>
    match parseDigits? a, parseDigits? b with
    | some x, some y => some (((x * 10 ^ b.length + y : Nat) : Int), b.length)
    | _, _ => none
  | _ => none

/-- Python `float(s)` on an optionally signed plain decimal literal, the
float column converter of `np.genfromtxt`. -/
def pyFloat? : List Char → Option (Int × Nat)
  | '-' :: rest => (pyFloatNonneg? rest).map (fun p => (-p.1, p.2))
  | '+' :: rest => pyFloatNonneg? rest
  | cs => pyFloatNonneg? cs

/-- Integer field conversion of `np.genfromtxt` with `loose=True`: an
unconvertible value becomes the integer filling value `-1`. -/
def intField (cs : List Char) : Int :=
  (pyInt? cs).getD (-1)

/-- One row of the dataset: the eight fields of the structured dtype
declared in `load_data`.  `temperature` is the parsed `f4` column;
`none` models the NaN filling value of an unconvertible float field. -/
structure Reading where
  patient_id : String
  timestamp : String
  heart_rate : Int
  blood_pressure_systolic : Int
  blood_pressure_diastolic : Int
  temperature : Option (Int × Nat)
  glucose_level : Int
  sensor_id : String
deriving Repr, DecidableEq

/-- Decode one comma-split row into a `Reading` following the structured
dtype of `load_data` (string widths `U10`, `U20`, `U10`; four `i4`
integer columns; one `f4` column). -/
def readingOfFields (r : List (List Char)) : Reading :=
  { patient_id := String.mk ((r.getD 0 []).take 10)
    timestamp := String.mk ((r.getD 1 []).take 20)
    heart_rate := intField (r.getD 2 [])
    blood_pressure_systolic := intField (r.getD 3 [])
    blood_pressure_diastolic := intField (r.getD 4 [])
    temperature := pyFloat? (r.getD 5 [])
    glucose_level := intField (r.getD 6 [])
    sensor_id := String.mk ((r.getD 7 []).take 10) }

/-- The comma-split data rows of a file: drop the header line
(`skip_header=1`), skip blank lines, split each remaining line on `,`. -/
def dataRows (text : String) : List (List (List Char)) :=
  (((splitSep '\n' text.data).drop 1).filter (fun l => l ≠ [])).map
    (splitSep ',')

/-- Failures of the load stage: `np.genfromtxt` raises
`FileNotFoundError` for an absent file and `ValueError` when some row
has the wrong number of fields. -/
inductive LoadError where
  | fileNotFound
  | wrongFieldCount
deriving Repr, DecidableEq

instance {ε α : Type} [DecidableEq ε] [DecidableEq α] :
    DecidableEq (Except ε α)
  | .error a, .error b => decidable_of_iff (a = b) (by simp)
  | .error _, .ok _ => .isFalse (fun h => Except.noConfusion h)
  | .ok _, .error _ => .isFalse (fun h => Except.noConfusion h)
  | .ok a, .ok b => decidable_of_iff (a = b) (by simp)

/-- `load_data`: `np.genfromtxt(filename, delimiter=',', dtype=dtype,
skip_header=1)`.  `none` models an absent file (`FileNotFoundError`).
If any data row has a field count other than 8 the whole load fails
(`invalid_raise=True`, no partial-row recovery); otherwise each field is
converted by its column converter, with unconvertible numeric fields
replaced by filling values (`loose=True`). -/
def load_data (contents : Option String) : Except LoadError (List Reading) :=
  match contents with
  | none => .error .fileNotFound
  | some text =>
    let rows := dataRows text
    if rows.any (fun r => r.length ≠ 8) then
      .error .wrongFieldCount
    else
      .ok (rows.map readingOfFields)

/-- Round the ratio `T / N` to the nearest integer with ties to even,
computed exactly on integers (`N > 0`; the `N = 0` case is never used). -/
def roundHalfEvenScaled (T : ℤ) (N : ℕ) : ℤ :=
  let q := T / (N : ℤ)
  let r := T % (N : ℤ)
  if 2 * r < (N : ℤ) then q
  else if (N : ℤ) < 2 * r then q + 1
  else if q % 2 = 0 then q else q + 1

/-- Print an integer number of tenths as a decimal string with one digit
after the point, as CPython fixed-point formatting does. -/
def renderTenths (n : ℤ) : String :=
  (if n < 0 then "-" else "") ++
    Nat.repr (n.natAbs / 10) ++ "." ++ Nat.repr (n.natAbs % 10)

/-- Fuel-driven floor of the base-2 logarithm (the fuel only bounds the
recursion; `log2fuel n n` is exact for `n ≥ 1`). -/
def log2fuel : Nat → Nat → Nat
  | 0, _ => 0
  | f + 1, n => if n < 2 then 0 else log2fuel f (n / 2) + 1

/-- Floor of the base-2 logarithm of a positive natural number. -/
def natLog2 (n : Nat) : Nat := log2fuel n n

/-- Floor of the base-2 logarithm of the positive ratio `A / B`: the
binade exponent `e` of the quotient, with `2 ^ e ≤ A / B < 2 ^ (e+1)`.
`natLog2 A - natLog2 B` is correct up to one; the shifted comparison
decides which. -/
def ratPairLog2 (A B : ℕ) : ℤ :=
  let c : ℤ := (natLog2 A : ℤ) - (natLog2 B : ℤ)
  if B * 2 ^ c.toNat ≤ A * 2 ^ (-c).toNat then c else c - 1

/-- The significand of the binary64 quotient `A / B` (for positive `A`,
`B`): the exact ratio scaled into the binade `[2^52, 2^53]` and rounded
to the nearest integer, ties to even — the IEEE-754 round-to-nearest
division result is this significand times `2 ^ (e - 52)`. -/
def fp64Mant (A B : ℕ) : ℤ :=
  if 0 ≤ ratPairLog2 A B - 52 then
    roundHalfEvenScaled (A : ℤ) (B * 2 ^ (ratPairLog2 A B - 52).toNat)
  else roundHalfEvenScaled ((A : ℤ) * 2 ^ (52 - ratPairLog2 A B).toNat) B

/-- The number of tenths printed by `%.1f` for the dyadic value
`m * 2 ^ k` (the exact value of a binary64 number): `10 * m * 2 ^ k`
rounded to the nearest integer, ties to even, computed exactly. -/
def dyadicTenths (m k : ℤ) : ℤ :=
  if 0 ≤ k then 10 * m * 2 ^ k.toNat
  else roundHalfEvenScaled (10 * m) (2 ^ (-k).toNat)

/-- The tenths printed by `f"{x:.1f}"` for the binary64 mean
`x = float64(S / N)`: the exact quotient is first rounded to binary64
(`fp64Mant`, sign restored by symmetry of round-to-nearest-even), and
the decimal formatting then rounds the exact value of that double to
tenths. -/
def fp64Tenths (S : ℤ) (N : ℕ) : ℤ :=
  if S = 0 then 0
  else
    dyadicTenths (if S < 0 then -fp64Mant S.natAbs N else fp64Mant S.natAbs N)
      (ratPairLog2 S.natAbs N - 52)

/-- `f"{x:.1f}"` applied to the float64 mean of an integer column with
sum `S` and length `N`. -/
def formatMean1 (S : ℤ) (N : ℕ) : String :=
  renderTenths (fp64Tenths S N)

/-- `f"{col.mean():.1f}"` for an integer column: the mean of an empty
column is NaN, which formats as `"nan"`; otherwise the mean is
`col.sum / col.length` formatted to one decimal place. -/
def meanFormat1 (xs : List Int) : String :=
  if xs = [] then "nan" else formatMean1 xs.sum xs.length

/-- The dictionary returned by `calculate_statistics`: three decimal
strings, each formatted with `%.1f`. -/
structure StatisticsSummary where
  avg_heart_rate : String
  avg_systolic_bp : String
  avg_glucose : String
deriving Repr, DecidableEq

/-- `calculate_statistics`: the means of the three numeric columns, each
formatted with `%.1f`. -/
def calculate_statistics (data : List Reading) : StatisticsSummary :=
  { avg_heart_rate := meanFormat1 (data.map (·.heart_rate))
    avg_systolic_bp := meanFormat1 (data.map (·.blood_pressure_systolic))
    avg_glucose := meanFormat1 (data.map (·.glucose_level)) }

/-- `(column > threshold).sum()`: the boolean mask summed as 0 / 1. -/
def maskSum (xs : List Int) (threshold : Int) : Nat :=
  (xs.map (fun v => if threshold < v then 1 else 0)).sum

/-- The dictionary returned by `find_abnormal_readings`: three
non-negative counts. -/
structure AbnormalityCounts where
  high_heart_rate : Nat
  high_blood_pressure : Nat
  high_glucose : Nat
deriving Repr, DecidableEq

/-- `find_abnormal_readings`: three independent strict-threshold counts
over the full dataset. -/
def find_abnormal_readings (data : List Reading) : AbnormalityCounts :=
  { high_heart_rate := maskSum (data.map (·.heart_rate)) 90
    high_blood_pressure := maskSum (data.map (·.blood_pressure_systolic)) 130
    high_glucose := maskSum (data.map (·.glucose_level)) 110 }

/-- Literal segment of the report f-string before `{total_readings}`. -/
def tmpl0 : String :=
  "Health Sensor Data Analysis Report\n==================================\n\nDataset Summary:\n- Total readings: "

/-- Literal segment between `{total_readings}` and the heart-rate mean. -/
def tmpl1 : String := "\n\nAverage Measurements:\n- Heart Rate: "

/-- Literal segment before the systolic mean. -/
def tmpl2 : String := " bpm\n- Systolic Blood Pressure: "

/-- Literal segment before the glucose mean. -/
def tmpl3 : String := " mmHg\n- Glucose Level: "

/-- Literal segment before the high-heart-rate count. -/
def tmpl4 : String := " mg/dL\n\nAbnormal Readings:\n- High Heart Rate (>90 bpm): "

/-- Literal segment before the high-blood-pressure count. -/
def tmpl5 : String := " readings\n- High Systolic Blood Pressure (>130 mmHg): "

/-- Literal segment before the high-glucose count. -/
def tmpl6 : String := " readings\n- High Glucose Level (>110 mg/dL): "

/-- Final literal segment of the f-string: the closing quotes sit on a
line of their own indented by one space, so the text ends with a
newline, an empty line, and a single space with no terminating
newline. -/
def tmpl7 : String := " readings\n\n "

/-- `generate_report`: the f-string template with the supplied values
interpolated (integers via `str`, statistics already strings). -/
def generate_report (stats : StatisticsSummary) (abnormal : AbnormalityCounts)
    (total_readings : Nat) : String :=
  tmpl0 ++ Nat.repr total_readings ++
  tmpl1 ++ stats.avg_heart_rate ++
  tmpl2 ++ stats.avg_systolic_bp ++
  tmpl3 ++ stats.avg_glucose ++
  tmpl4 ++ Nat.repr abnormal.high_heart_rate ++
  tmpl5 ++ Nat.repr abnormal.high_blood_pressure ++
  tmpl6 ++ Nat.repr abnormal.high_glucose ++
  tmpl7

/-- A file system: a map from path to file contents. -/
def FileSystem : Type := String → Option String

/-- `save_report`: `open(filename, 'w')` followed by one write — create
or truncate, never append. -/
def save_report (fs : FileSystem) (report : String) (filename : String) :
    FileSystem :=
  fun p => if p = filename then some report else fs p

/-- The fixed input path read by `main`. -/
def inputPath : String := "health_data.csv"

/-- The fixed output path written by `main`. -/
def outputPath : String := "output/analysis_report.txt"

/-- The pure part of `main`: load, aggregate, classify, render.  A load
failure propagates and no report is produced. -/
def runPipeline (contents : Option String) : Except LoadError String :=
  (load_data contents).map (fun data =>
    generate_report (calculate_statistics data) (find_abnormal_readings data)
      data.length)

/-- `main`: read the fixed input path, run the pipeline, and on success
write the report to the fixed output path.  If the load raises, the
exception propagates and the file system is untouched. -/
def main_run (fs : FileSystem) : FileSystem :=
  match runPipeline (fs inputPath) with
  | .error _ => fs
  | .ok report => save_report fs report outputPath

/-! Specification-side definitions, written from the words of the
specification and compared with the source-side definitions above. -/

/-- Modelled from the spec: round a rational to the nearest integer with
ties to even, stated directly on the real value via its floor. -/
def roundHalfEvenRat (x : ℚ) : ℤ :=
  if x - ⌊x⌋ < 1 / 2 then ⌊x⌋
  else if (1 : ℚ) / 2 < x - ⌊x⌋ then ⌊x⌋ + 1
  else if ⌊x⌋ % 2 = 0 then ⌊x⌋ else ⌊x⌋ + 1

/-- Modelled from the spec: a mean value formatted as a decimal string
with exactly one digit after the decimal point, half-to-even. -/
def formatRat1 (q : ℚ) : String :=
  renderTenths (roundHalfEvenRat (10 * q))

/-- Round a rational to the nearest binary64 value: scale into the
binade `[2^52, 2^53)` of `|x|`, round to the nearest integer with ties
to even, and scale back.  The finite exponent range of binary64 is not
modelled (unreachable for means of `i4` data). -/
def float64Round (x : ℚ) : ℚ :=
  if x = 0 then 0
  else
    (roundHalfEvenRat (x * 2 ^ (52 - Int.log 2 |x|)) : ℚ)
      * 2 ^ (Int.log 2 |x| - 52)

/-- Modelled from the spec: the reference mean `S / N` rounded directly
to one decimal place, ties to even, without the intermediate binary64
rounding of the mean. -/
def formatMean1Exact (S : ℤ) (N : ℕ) : String :=
  renderTenths (roundHalfEvenScaled (10 * S) N)

/-- Modelled from the spec: round the ratio `T / N` to the nearest
integer with ties away from zero, the alternative rounding mode that the
spec contrasts with half-to-even. -/
def roundHalfAwayScaled (T : ℤ) (N : ℕ) : ℤ :=
  let q := T / (N : ℤ)
  let r := T % (N : ℤ)
  if 2 * r < (N : ℤ) then q
  else if (N : ℤ) < 2 * r then q + 1
  else if 0 ≤ T then q + 1 else q

/-- Modelled from the spec: `%.1f` of the mean `S / N` using ties away
from zero instead of ties to even. -/
def formatMean1Away (S : ℤ) (N : ℕ) : String :=
  renderTenths (roundHalfAwayScaled (10 * S) N)

/-- Modelled from the spec: the reference arithmetic mean of a column,
the sum of the column divided by the number of rows. -/
def refMean (xs : List Int) : ℚ :=
  (xs.foldr (fun a s => (a : ℚ) + s) 0) / (xs.length : ℚ)

/-- Modelled from the spec: the fixed report template of section 6 with
the values substituted verbatim and a trailing blank line. -/
def spec6Render (stats : StatisticsSummary) (abnormal : AbnormalityCounts)
    (total : Nat) : String :=
  "Health Sensor Data Analysis Report\n==================================\n\nDataset Summary:\n- Total readings: " ++
  Nat.repr total ++
  "\n\nAverage Measurements:\n- Heart Rate: " ++ stats.avg_heart_rate ++
  " bpm\n- Systolic Blood Pressure: " ++ stats.avg_systolic_bp ++
  " mmHg\n- Glucose Level: " ++ stats.avg_glucose ++
  " mg/dL\n\nAbnormal Readings:\n- High Heart Rate (>90 bpm): " ++
  Nat.repr abnormal.high_heart_rate ++
  " readings\n- High Systolic Blood Pressure (>130 mmHg): " ++
  Nat.repr abnormal.high_blood_pressure ++
  " readings\n- High Glucose Level (>110 mg/dL): " ++
  Nat.repr abnormal.high_glucose ++
  " readings\n\n"

/-- Modelled from the spec: re-parse the integer of the report line
`- Total readings: <int>`, which sits at a fixed offset of the fixed
template: check the template text up to that point and read the digit
run that follows. -/
def parse_total_readings (s : String) : Option Nat :=
  if s.data.take tmpl0.data.length = tmpl0.data then
    match (s.data.drop tmpl0.data.length).takeWhile Char.isDigit with
    | [] => none
    | ds => some (ds.foldl (fun a c => a * 10 + digitVal c) 0)
  else none

/-- A string has exactly one digit after the decimal point: it contains
a point and exactly one character follows the last point. -/
def oneDecimalAfterPoint (s : String) : Bool :=
  s.data.any (fun c => c = '.') &&
    ((s.data.reverse.takeWhile (fun c => c ≠ '.')).length == 1)

/-- The decimal digit characters of a natural number, most significant
first: the reference rendering used to reason about `Nat.repr`. -/
def decDigits (n : Nat) : List Char :=
  if _h : n < 10 then [Nat.digitChar n]
  else decDigits (n / 10) ++ [Nat.digitChar (n % 10)]
decreasing_by exact Nat.div_lt_self (by omega) (by omega)

/-! Concrete sample data used by witnesses and counterexamples. -/

/-- The header line of the input CSV format. -/
def csvHeader : String :=
  "patient_id,timestamp,heart_rate,blood_pressure_systolic,blood_pressure_diastolic,temperature,glucose_level,sensor_id"

/-- Scenario A input file: two rows with heart rates 80 and 100. -/
def scenarioAFile : String :=
  csvHeader ++ "\nP1,2024-01-01 08:00,80,120,80,36.8,100,S1\nP2,2024-01-01 09:00,100,120,80,36.8,100,S2"

/-- The dataset parsed from `scenarioAFile`. -/
def dataA : List Reading :=
  [⟨"P1", "2024-01-01 08:00", 80, 120, 80, some (368, 1), 100, "S1"⟩,
   ⟨"P2", "2024-01-01 09:00", 100, 120, 80, some (368, 1), 100, "S2"⟩]

/-- Four rows with heart rates 90, 91, 90, 90: the mean is 90.25, an
exact binary64 value whose one-decimal rounding is a tie. -/
def tieData : List Reading :=
  [⟨"P1", "T1", 90, 120, 80, some (370, 1), 100, "S1"⟩,
   ⟨"P2", "T2", 91, 120, 80, some (370, 1), 100, "S2"⟩,
   ⟨"P3", "T3", 90, 120, 80, some (370, 1), 100, "S3"⟩,
   ⟨"P4", "T4", 90, 120, 80, some (370, 1), 100, "S4"⟩]

/-- Twenty rows: thirteen heart rates of 90 and seven of 91.  The exact
mean 90.35 is a decimal tie not representable in binary64: the float64
mean is slightly below 90.35, so the program prints `90.3`, while
one-decimal rounding of the exact mean gives `90.4`. -/
def data20 : List Reading :=
  List.replicate 13 (⟨"PA", "TA", 90, 120, 80, some (370, 1), 100, "SA"⟩ : Reading)
    ++ List.replicate 7 ⟨"PB", "TB", 91, 120, 80, some (370, 1), 100, "SB"⟩

/-- A single reading whose systolic pressure is exactly 130. -/
def row130 : Reading := ⟨"P0", "T0", 80, 130, 80, some (370, 1), 100, "S0"⟩

/-- A reading sitting exactly on all three thresholds (90, 130, 110). -/
def rowAllThresholds : Reading :=
  ⟨"P9", "T9", 90, 130, 80, some (370, 1), 110, "S9"⟩

/-- An input file whose heart-rate field cannot be coerced to an
integer. -/
def badCoercionFile : String :=
  csvHeader ++ "\nP1,2024-01-01,abc,120,80,98.6,100,S1"

/-- An input file with a malformed row of 7 fields instead of 8. -/
def sevenFieldFile : String :=
  csvHeader ++ "\nP1,2024-01-01,95,120,80,98.6,100"

/-- A file system holding only the scenario A input file. -/
def fsA : FileSystem :=
  fun p => if p = inputPath then some scenarioAFile else none

/-! Helper lemmas. -/

theorem digitChar_isDigit : ∀ d : Nat, d < 10 → (Nat.digitChar d).isDigit = true := by
  decide

theorem digitVal_digitChar : ∀ d : Nat, d < 10 → digitVal (Nat.digitChar d) = d := by
  decide

theorem digitChar_ne_dot : ∀ d : Nat, d < 10 → Nat.digitChar d ≠ '.' := by
  decide

theorem maskSum_eq_filter (xs : List Int) (t : Int) :
    maskSum xs t = (xs.filter (fun v => t < v)).length := by
  induction xs with
  | nil => rfl
  | cons a l ih =>
    simp only [maskSum, List.map_cons, List.sum_cons, List.filter_cons] at *
    by_cases h : t < a <;> simp [h, ih, Nat.add_comm]

theorem sum_cast_eq_foldr (xs : List Int) :
    ((xs.sum : ℤ) : ℚ) = xs.foldr (fun a s => (a : ℚ) + s) 0 := by
  induction xs with
  | nil => simp
  | cons a l ih => simp [List.sum_cons, ih]

theorem takeWhile_append_cons (p : Char → Bool) :
    ∀ (xs : List Char) (y : Char) (ys : List Char),
      (∀ c ∈ xs, p c = true) → p y = false →
      ((xs ++ y :: ys).takeWhile p) = xs := by
  intro xs
  induction xs with
  | nil => intro y ys _ hy; simp [List.takeWhile_cons, hy]
  | cons a t ih =>
    intro y ys hall hy
    have ha : p a = true := hall a (by simp)
    simp only [List.cons_append, List.takeWhile_cons, ha, if_true]
    rw [ih y ys (fun c hc => hall c (by simp [hc])) hy]

theorem decDigits_ne_nil (n : Nat) : decDigits n ≠ [] := by
  rw [decDigits]
  split <;> simp

theorem decDigits_all_digit (n : Nat) : ∀ c ∈ decDigits n, c.isDigit = true := by
  induction n using Nat.strong_induction_on with
  | _ n ih =>
    rw [decDigits]
    split
    · next h =>
      intro c hc
      simp only [List.mem_singleton] at hc
      exact hc ▸ digitChar_isDigit n h
    · next h =>
      intro c hc
      rcases List.mem_append.1 hc with hl | hr
      · exact ih (n / 10) (Nat.div_lt_self (by omega) (by omega)) c hl
      · simp only [List.mem_singleton] at hr
        exact hr ▸ digitChar_isDigit (n % 10) (Nat.mod_lt n (by omega))

theorem foldl_decDigits (n : Nat) : ∀ acc : Nat,
    (decDigits n).foldl (fun a c => a * 10 + digitVal c) acc
      = acc * 10 ^ (decDigits n).length + n := by
  induction n using Nat.strong_induction_on with
  | _ n ih =>
    intro acc
    rw [decDigits]
    split
    · next h =>
      simp [List.foldl_cons, digitVal_digitChar n h]
    · next h =>
      rw [List.foldl_append]
      rw [ih (n / 10) (Nat.div_lt_self (by omega) (by omega)) acc]
      simp only [List.foldl_cons, List.foldl_nil, List.length_append,
        List.length_singleton]
      rw [digitVal_digitChar (n % 10) (Nat.mod_lt n (by omega))]
      rw [pow_succ, ← mul_assoc]
      generalize acc * 10 ^ (decDigits (n / 10)).length = B
      omega

theorem toDigitsCore_eq (f : Nat) : ∀ (n : Nat) (l : List Char), n ≤ f →
    Nat.toDigitsCore 10 (f + 1) n l = decDigits n ++ l := by
  induction f with
  | zero =>
    intro n l hn
    obtain rfl : n = 0 := by omega
    simp [Nat.toDigitsCore, decDigits]
  | succ f ihf =>
    intro n l hn
    by_cases h10 : n < 10
    · have hdiv : n / 10 = 0 := Nat.div_eq_of_lt h10
      rw [decDigits]
      simp [Nat.toDigitsCore, hdiv, h10, Nat.mod_eq_of_lt h10]
    · have hdiv : n / 10 ≠ 0 := by
        have : 10 / 10 ≤ n / 10 := Nat.div_le_div_right (by omega)
        omega
      have hlt : n / 10 < n := Nat.div_lt_self (by omega) (by omega)
      have hstep : Nat.toDigitsCore 10 (f + 1 + 1) n l
          = Nat.toDigitsCore 10 (f + 1) (n / 10) (Nat.digitChar (n % 10) :: l) := by
        simp [Nat.toDigitsCore, hdiv]
      rw [hstep, ihf (n / 10) _ (by omega)]
      conv_rhs => rw [decDigits]
      simp [h10]

theorem repr_data (n : Nat) : (Nat.repr n).data = decDigits n := by
  show (List.asString (Nat.toDigits 10 n)).data = decDigits n
  rw [Nat.toDigits, toDigitsCore_eq n n [] le_rfl]
  simp [List.asString]

theorem parse_total_generate (s : StatisticsSummary) (a : AbnormalityCounts)
    (n : Nat) : parse_total_readings (generate_report s a n) = some n := by
  have h1 : tmpl1.data = '\n' :: "\nAverage Measurements:\n- Heart Rate: ".data :=
    rfl
  have hdata : (generate_report s a n).data
      = tmpl0.data ++ decDigits n ++ '\n' ::
          ("\nAverage Measurements:\n- Heart Rate: ".data ++
            s.avg_heart_rate.data ++ tmpl2.data ++ s.avg_systolic_bp.data ++
            tmpl3.data ++ s.avg_glucose.data ++ tmpl4.data ++
            (Nat.repr a.high_heart_rate).data ++ tmpl5.data ++
            (Nat.repr a.high_blood_pressure).data ++ tmpl6.data ++
            (Nat.repr a.high_glucose).data ++ tmpl7.data) := by
    simp [generate_report, String.data_append, List.append_assoc, repr_data n, h1]
  unfold parse_total_readings
  rw [hdata, List.append_assoc, List.take_left, List.drop_left, if_pos rfl]
  rw [takeWhile_append_cons Char.isDigit (decDigits n) '\n' _
    (decDigits_all_digit n) (by decide)]
  cases hd : decDigits n with
  | nil => exact absurd hd (decDigits_ne_nil n)
  | cons c cs =>
    show some ((c :: cs).foldl (fun a c => a * 10 + digitVal c) 0) = some n
    rw [← hd, foldl_decDigits n 0]
    simp

theorem renderTenths_oneDecimal (n : ℤ) :
    oneDecimalAfterPoint (renderTenths n) = true := by
  have hmod : n.natAbs % 10 < 10 := Nat.mod_lt _ (by omega)
  have hd2 : (Nat.repr (n.natAbs % 10)).data = [Nat.digitChar (n.natAbs % 10)] := by
    rw [repr_data, decDigits, dif_pos hmod]
  have hc : (decide (Nat.digitChar (n.natAbs % 10) ≠ '.')) = true :=
    decide_eq_true (digitChar_ne_dot _ hmod)
  unfold oneDecimalAfterPoint renderTenths
  generalize (if n < 0 then ("-" : String) else "") = sg
  rw [Bool.and_eq_true]
  constructor
  · simp [String.data_append, List.any_append, hd2]
  · simp only [String.data_append, List.append_assoc, hd2]
    simp only [List.reverse_append, List.reverse_cons, List.reverse_nil,
      List.nil_append, List.cons_append]
    have hdot : (decide (('.' : Char) ≠ '.')) = false := by decide
    have hne := digitChar_ne_dot _ hmod
    simp [List.takeWhile_cons, hc, hdot, hne]

theorem generate_report_eq_spec6 (s : StatisticsSummary) (a : AbnormalityCounts)
    (n : Nat) : generate_report s a n = spec6Render s a n ++ " " := by
  have h7 : (" readings\n\n" : String) ++ " " = tmpl7 := by decide
  unfold generate_report spec6Render
  simp only [String.append_assoc, h7]
  rfl

theorem roundScaled_eq_rat (T : ℤ) (N : ℕ) (hN : 0 < N) :
    roundHalfEvenScaled T N = roundHalfEvenRat ((T : ℚ) / (N : ℚ)) := by
  have hNQ : (0 : ℚ) < (N : ℚ) := by exact_mod_cast hN
  have hNZ : (0 : ℤ) < (N : ℤ) := by exact_mod_cast hN
  have hfloor : ⌊(T : ℚ) / (N : ℚ)⌋ = T / (N : ℤ) :=
    Rat.floor_intCast_div_natCast T N
  have hTqr : (N : ℤ) * (T / (N : ℤ)) + T % (N : ℤ) = T :=
    Int.ediv_add_emod T (N : ℤ)
  have hcast : ((N : ℕ) : ℚ) = ((N : ℤ) : ℚ) := by push_cast; ring
  have hTQ : (N : ℚ) * ((T / (N : ℤ) : ℤ) : ℚ) + ((T % (N : ℤ) : ℤ) : ℚ)
      = (T : ℚ) := by exact_mod_cast hTqr
  have hxval : (T : ℚ) / (N : ℚ) - ((T / (N : ℤ) : ℤ) : ℚ)
      = ((T % (N : ℤ) : ℤ) : ℚ) / (N : ℚ) := by
    rw [← hTQ, add_div, mul_div_cancel_left₀ _ (ne_of_gt hNQ)]
    ring
  have hlt : ((T % (N : ℤ) : ℤ) : ℚ) / (N : ℚ) < 1 / 2
      ↔ 2 * (T % (N : ℤ)) < (N : ℤ) := by
    rw [div_lt_div_iff₀ hNQ (by norm_num : (0 : ℚ) < 2), one_mul, hcast,
      show ((T % (N : ℤ) : ℤ) : ℚ) * 2 = ((T % (N : ℤ) * 2 : ℤ) : ℚ) by
        push_cast; ring,
      Int.cast_lt]
    constructor <;> intro h <;> linarith
  have hgt : (1 : ℚ) / 2 < ((T % (N : ℤ) : ℤ) : ℚ) / (N : ℚ)
      ↔ (N : ℤ) < 2 * (T % (N : ℤ)) := by
    rw [div_lt_div_iff₀ (by norm_num : (0 : ℚ) < 2) hNQ, one_mul, hcast,
      show ((T % (N : ℤ) : ℤ) : ℚ) * 2 = ((T % (N : ℤ) * 2 : ℤ) : ℚ) by
        push_cast; ring,
      Int.cast_lt]
    constructor <;> intro h <;> linarith
  simp only [roundHalfEvenScaled, roundHalfEvenRat]
  rw [hfloor, hxval]
  simp only [hlt, hgt]

theorem formatMean1Exact_eq_rat (S : ℤ) (N : ℕ) (hN : 0 < N) :
    formatMean1Exact S N = formatRat1 ((S : ℚ) / (N : ℚ)) := by
  unfold formatMean1Exact formatRat1
  rw [roundScaled_eq_rat (10 * S) N hN]
  congr 2
  push_cast
  ring

theorem formatMean1Exact_eq_refMean (xs : List Int) (h : xs ≠ []) :
    formatMean1Exact xs.sum xs.length = formatRat1 (refMean xs) := by
  have hlen : 0 < xs.length := List.length_pos.2 h
  unfold refMean
  rw [formatMean1Exact_eq_rat xs.sum xs.length hlen, ← sum_cast_eq_foldr]

theorem log2fuel_spec : ∀ (f n : Nat), 0 < n → n ≤ f →
    2 ^ log2fuel f n ≤ n ∧ n < 2 ^ (log2fuel f n + 1) := by
  intro f
  induction f with
  | zero => intro n h1 h2; exact absurd h1 (by omega)
  | succ f ih =>
    intro n h1 h2
    by_cases h : n < 2
    · simp only [log2fuel, if_pos h]
      omega
    · have hrec := ih (n / 2) (by omega) (by omega)
      simp only [log2fuel, if_neg h]
      rw [pow_succ, pow_succ] at *
      omega

theorem natLog2_spec (n : Nat) (h : 0 < n) :
    2 ^ natLog2 n ≤ n ∧ n < 2 ^ (natLog2 n + 1) :=
  log2fuel_spec n n h le_rfl

theorem intLog2_eq_of_bounds {x : ℚ} (hx : 0 < x) {e : ℤ}
    (h1 : (2 : ℚ) ^ e ≤ x) (h2 : x < (2 : ℚ) ^ (e + 1)) :
    Int.log 2 x = e := by
  have h1' : ((2 : ℕ) : ℚ) ^ e ≤ x := by push_cast; exact h1
  have h2' : x < ((2 : ℕ) : ℚ) ^ (e + 1) := by push_cast; exact h2
  have hle : e ≤ Int.log 2 x := (Int.zpow_le_iff_le_log one_lt_two hx).1 h1'
  have hlt : Int.log 2 x < e + 1 := (Int.lt_zpow_iff_log_lt one_lt_two hx).1 h2'
  omega

theorem ratPairLog2_bounds (A B : ℕ) (hA : 0 < A) (hB : 0 < B) :
    (2 : ℚ) ^ ratPairLog2 A B * (B : ℚ) ≤ (A : ℚ) ∧
      (A : ℚ) < (2 : ℚ) ^ (ratPairLog2 A B + 1) * (B : ℚ) := by
  obtain ⟨hA1, hA2⟩ := natLog2_spec A hA
  obtain ⟨hB1, hB2⟩ := natLog2_spec B hB
  have h2ne : (2 : ℚ) ≠ 0 := by norm_num
  have cast_pow : ∀ m : ℕ, ((2 ^ m : ℕ) : ℚ) = (2 : ℚ) ^ (m : ℤ) := by
    intro m
    push_cast
    rw [zpow_natCast]
  have hA1' : (2 : ℚ) ^ ((natLog2 A : ℕ) : ℤ) ≤ (A : ℚ) := by
    rw [← cast_pow]; exact_mod_cast hA1
  have hA2' : (A : ℚ) < (2 : ℚ) ^ (((natLog2 A : ℕ) : ℤ) + 1) := by
    rw [show ((natLog2 A : ℕ) : ℤ) + 1 = ((natLog2 A + 1 : ℕ) : ℤ) by push_cast; ring,
      ← cast_pow]
    exact_mod_cast hA2
  have hB1' : (2 : ℚ) ^ ((natLog2 B : ℕ) : ℤ) ≤ (B : ℚ) := by
    rw [← cast_pow]; exact_mod_cast hB1
  have hB2' : (B : ℚ) < (2 : ℚ) ^ (((natLog2 B : ℕ) : ℤ) + 1) := by
    rw [show ((natLog2 B : ℕ) : ℤ) + 1 = ((natLog2 B + 1 : ℕ) : ℤ) by push_cast; ring,
      ← cast_pow]
    exact_mod_cast hB2
  simp only [ratPairLog2]
  set c : ℤ := ((natLog2 A : ℕ) : ℤ) - ((natLog2 B : ℕ) : ℤ) with hc
  have hpowpos : (0 : ℚ) < 2 ^ ((-c).toNat : ℕ) := by positivity
  have hquot : (B : ℚ) * 2 ^ (c.toNat : ℕ) / 2 ^ ((-c).toNat : ℕ)
      = 2 ^ c * (B : ℚ) := by
    rw [mul_div_assoc, ← zpow_natCast (2 : ℚ) c.toNat,
      ← zpow_natCast (2 : ℚ) (-c).toNat, ← zpow_sub₀ h2ne,
      show (c.toNat : ℤ) - ((-c).toNat : ℤ) = c by omega, mul_comm]
  split_ifs with htest
  · constructor
    · have hq : (B : ℚ) * 2 ^ (c.toNat : ℕ) ≤ (A : ℚ) * 2 ^ ((-c).toNat : ℕ) := by
        exact_mod_cast htest
      have := (div_le_iff₀ hpowpos).2 hq
      rwa [hquot] at this
    · calc (A : ℚ) < 2 ^ (((natLog2 A : ℕ) : ℤ) + 1) := hA2'
        _ = 2 ^ (c + 1) * 2 ^ ((natLog2 B : ℕ) : ℤ) := by
            rw [← zpow_add₀ h2ne]
            congr 1
            omega
        _ ≤ 2 ^ (c + 1) * (B : ℚ) := by
            exact mul_le_mul_of_nonneg_left hB1' (by positivity)
  · constructor
    · have hstep : (2 : ℚ) ^ (c - 1) * (B : ℚ) < (A : ℚ) := by
        calc (2 : ℚ) ^ (c - 1) * (B : ℚ)
            < 2 ^ (c - 1) * 2 ^ (((natLog2 B : ℕ) : ℤ) + 1) :=
              mul_lt_mul_of_pos_left hB2' (by positivity)
          _ = 2 ^ ((natLog2 A : ℕ) : ℤ) := by
              rw [← zpow_add₀ h2ne]
              congr 1
              omega
          _ ≤ (A : ℚ) := hA1'
      exact hstep.le
    · have hq : (A : ℚ) * 2 ^ ((-c).toNat : ℕ) < (B : ℚ) * 2 ^ (c.toNat : ℕ) := by
        exact_mod_cast Nat.lt_of_not_le htest
      have := (lt_div_iff₀ hpowpos).2 hq
      rw [hquot] at this
      calc (A : ℚ) < 2 ^ c * (B : ℚ) := this
        _ = 2 ^ (c - 1 + 1) * (B : ℚ) := by congr 2; omega

theorem ratPairLog2_eq_log (A B : ℕ) (hA : 0 < A) (hB : 0 < B) :
    ratPairLog2 A B = Int.log 2 ((A : ℚ) / (B : ℚ)) := by
  have hAQ : (0 : ℚ) < (A : ℚ) := by exact_mod_cast hA
  have hBQ : (0 : ℚ) < (B : ℚ) := by exact_mod_cast hB
  have hx : (0 : ℚ) < (A : ℚ) / (B : ℚ) := div_pos hAQ hBQ
  obtain ⟨h1, h2⟩ := ratPairLog2_bounds A B hA hB
  exact (intLog2_eq_of_bounds hx ((le_div_iff₀ hBQ).2 h1)
    ((div_lt_iff₀ hBQ).2 h2)).symm

theorem roundHalfEvenRat_intCast (z : ℤ) :
    roundHalfEvenRat ((z : ℚ)) = z := by
  unfold roundHalfEvenRat
  rw [Int.floor_intCast, sub_self, if_pos (by norm_num : (0 : ℚ) < 1 / 2)]

theorem roundHalfEvenRat_neg (x : ℚ) :
    roundHalfEvenRat (-x) = -roundHalfEvenRat x := by
  have hf := Int.floor_le x
  have hf1 := Int.lt_floor_add_one x
  by_cases hr0 : x - ⌊x⌋ = 0
  · have hx : x = ((⌊x⌋ : ℤ) : ℚ) := by linarith
    rw [hx, show -((⌊x⌋ : ℤ) : ℚ) = (((-⌊x⌋ : ℤ)) : ℚ) by push_cast; ring,
      roundHalfEvenRat_intCast, roundHalfEvenRat_intCast]
  · have hflt : ((⌊x⌋ : ℤ) : ℚ) < x := lt_of_le_of_ne hf (by
      intro h
      exact hr0 (by linarith))
    have hfloorneg : ⌊-x⌋ = -⌊x⌋ - 1 := by
      rw [Int.floor_eq_iff]
      constructor <;> push_cast <;> linarith
    unfold roundHalfEvenRat
    rw [hfloorneg]
    rw [show -x - ((-⌊x⌋ - 1 : ℤ) : ℚ) = 1 - (x - ⌊x⌋) by push_cast; ring]
    split_ifs <;> first | omega | linarith

theorem fp64Mant_eq (A B : ℕ) (_hA : 0 < A) (hB : 0 < B) :
    fp64Mant A B
      = roundHalfEvenRat ((A : ℚ) / (B : ℚ)
          * (2 : ℚ) ^ (52 - ratPairLog2 A B)) := by
  have h2ne : (2 : ℚ) ≠ 0 := by norm_num
  unfold fp64Mant
  split_ifs with hk
  · rw [roundScaled_eq_rat _ _
      (Nat.mul_pos hB (Nat.pos_pow_of_pos _ (by omega)))]
    congr 1
    push_cast
    rw [show (52 : ℤ) - ratPairLog2 A B = -(ratPairLog2 A B - 52) by ring,
      zpow_neg, ← zpow_natCast (2 : ℚ) (ratPairLog2 A B - 52).toNat,
      Int.toNat_of_nonneg hk, div_mul_eq_div_div, div_eq_mul_inv]
  · rw [roundScaled_eq_rat _ _ hB]
    congr 1
    push_cast
    rw [← zpow_natCast (2 : ℚ) (52 - ratPairLog2 A B).toNat,
      Int.toNat_of_nonneg (by omega), mul_div_right_comm]

theorem float64Round_pair (A B : ℕ) (hA : 0 < A) (hB : 0 < B) :
    float64Round ((A : ℚ) / (B : ℚ))
      = (fp64Mant A B : ℚ) * (2 : ℚ) ^ (ratPairLog2 A B - 52) := by
  have hAQ : (0 : ℚ) < (A : ℚ) := by exact_mod_cast hA
  have hBQ : (0 : ℚ) < (B : ℚ) := by exact_mod_cast hB
  have hx : (0 : ℚ) < (A : ℚ) / (B : ℚ) := div_pos hAQ hBQ
  unfold float64Round
  rw [if_neg (ne_of_gt hx), abs_of_pos hx, ← ratPairLog2_eq_log A B hA hB,
    fp64Mant_eq A B hA hB]

theorem float64Round_neg (x : ℚ) :
    float64Round (-x) = -float64Round x := by
  by_cases hx : x = 0
  · simp [hx, float64Round]
  · unfold float64Round
    rw [if_neg (neg_ne_zero.2 hx), if_neg hx, abs_neg,
      show -x * 2 ^ ((52 : ℤ) - Int.log 2 |x|)
          = -(x * 2 ^ ((52 : ℤ) - Int.log 2 |x|)) by ring,
      roundHalfEvenRat_neg]
    push_cast
    ring

theorem dyadicTenths_eq (m k : ℤ) :
    dyadicTenths m k
      = roundHalfEvenRat (10 * ((m : ℚ) * (2 : ℚ) ^ k)) := by
  unfold dyadicTenths
  split_ifs with hk
  · rw [show (10 : ℚ) * ((m : ℚ) * 2 ^ k) = ((10 * m * 2 ^ k.toNat : ℤ) : ℚ) by
      push_cast
      rw [← zpow_natCast (2 : ℚ) k.toNat, Int.toNat_of_nonneg hk]
      ring]
    rw [roundHalfEvenRat_intCast]
  · rw [roundScaled_eq_rat _ _ (Nat.pos_pow_of_pos _ (by omega))]
    congr 1
    push_cast
    rw [← zpow_natCast (2 : ℚ) (-k).toNat,
      Int.toNat_of_nonneg (by omega : (0 : ℤ) ≤ -k), zpow_neg,
      div_eq_mul_inv, inv_inv]
    ring

theorem fp64Tenths_eq (S : ℤ) (N : ℕ) (hN : 0 < N) :
    fp64Tenths S N
      = roundHalfEvenRat (10 * float64Round ((S : ℚ) / (N : ℚ))) := by
  by_cases hS : S = 0
  · subst hS
    have h0 : roundHalfEvenRat ((0 : ℚ)) = 0 := by
      have := roundHalfEvenRat_intCast 0
      simpa using this
    simp [fp64Tenths, float64Round, h0]
  · have hA : 0 < S.natAbs := Int.natAbs_pos.2 hS
    unfold fp64Tenths
    rw [if_neg hS, dyadicTenths_eq]
    congr 2
    by_cases hSn : S < 0
    · rw [if_pos hSn]
      have hSQ : (S : ℚ) < 0 := by exact_mod_cast hSn
      have hcast : ((S.natAbs : ℚ)) = -(S : ℚ) := by
        rw [Int.cast_natAbs, Int.cast_abs, abs_of_neg hSQ]
      rw [show (S : ℚ) / (N : ℚ) = -((S.natAbs : ℚ) / (N : ℚ)) by
          rw [hcast]; ring,
        float64Round_neg, float64Round_pair S.natAbs N hA hN]
      push_cast
      ring
    · rw [if_neg hSn]
      have hSQ : (0 : ℚ) ≤ (S : ℚ) := by exact_mod_cast not_lt.1 hSn
      have hcast : ((S.natAbs : ℚ)) = (S : ℚ) := by
        rw [Int.cast_natAbs, Int.cast_abs, abs_of_nonneg hSQ]
      rw [show (S : ℚ) / (N : ℚ) = (S.natAbs : ℚ) / (N : ℚ) by rw [hcast],
        float64Round_pair S.natAbs N hA hN]

theorem formatMean1_eq_fp64 (S : ℤ) (N : ℕ) (hN : 0 < N) :
    formatMean1 S N = formatRat1 (float64Round ((S : ℚ) / (N : ℚ))) := by
  unfold formatMean1 formatRat1
  rw [fp64Tenths_eq S N hN]

theorem meanFormat1_eq_fp64refMean (xs : List Int) (h : xs ≠ []) :
    meanFormat1 xs = formatRat1 (float64Round (refMean xs)) := by
  have hlen : 0 < xs.length := List.length_pos.2 h
  unfold meanFormat1 refMean
  rw [if_neg h, formatMean1_eq_fp64 xs.sum xs.length hlen, ← sum_cast_eq_foldr]

theorem map_ne_nil (f : Reading → Int) (data : List Reading) (h : data ≠ []) :
    data.map f ≠ [] := by
  cases data with
  | nil => exact absurd rfl h
  | cons a l => simp

theorem maskSum_map (f : Reading → Int) (t : Int) (data : List Reading) :
    maskSum (data.map f) t = (data.filter (fun r => t < f r)).length := by
  induction data with
  | nil => rfl
  | cons a l ih =>
    simp only [maskSum, List.map_cons, List.sum_cons, List.filter_cons,
      List.map_map] at *
    by_cases h : t < f a <;> simp [h, ih, Nat.add_comm]

theorem find_abnormal_append_threshold (data : List Reading) (row : Reading)
    (h1 : ¬ 90 < row.heart_rate) (h2 : ¬ 130 < row.blood_pressure_systolic)
    (h3 : ¬ 110 < row.glucose_level) :
    find_abnormal_readings (data ++ [row]) = find_abnormal_readings data := by
  simp [find_abnormal_readings, maskSum, List.map_append, List.sum_append,
    h1, h2, h3]

/-! The claims. -/

/-- Counterexample to C1 as stated: at twenty rows with heart rates
thirteen times 90 and seven times 91 the exact mean is the decimal tie
90.35, not representable in binary64; the program formats the float64
mean (slightly below 90.35) as `90.3`, while the independently computed
reference mean rounded to one decimal is `90.4`. -/
theorem claim_C1_mean_counterexample :
    (calculate_statistics data20).avg_heart_rate = "90.3" ∧
    formatRat1 (refMean (data20.map (·.heart_rate))) = "90.4" := by
  constructor
  · decide
  · rw [← formatMean1Exact_eq_refMean (data20.map (·.heart_rate)) (by decide)]
    decide

/-- Claim C1 as amended: for every non-empty dataset,
`calculate_statistics` returns the reference arithmetic mean of each of
the three columns (sum of the column divided by the number of rows)
rounded to the nearest binary64 value and then formatted with exactly
one digit after the decimal point; this equals the directly rounded
reference mean whenever the mean is exactly representable, as in
scenario A. -/
theorem claim_C1_statistics_mean (data : List Reading) (h : data ≠ []) :
    calculate_statistics data
        = { avg_heart_rate :=
              formatRat1 (float64Round (refMean (data.map (·.heart_rate))))
            avg_systolic_bp :=
              formatRat1 (float64Round
                (refMean (data.map (·.blood_pressure_systolic))))
            avg_glucose :=
              formatRat1 (float64Round (refMean (data.map (·.glucose_level)))) } ∧
      oneDecimalAfterPoint (calculate_statistics data).avg_heart_rate = true ∧
      oneDecimalAfterPoint (calculate_statistics data).avg_systolic_bp = true ∧
      oneDecimalAfterPoint (calculate_statistics data).avg_glucose = true := by
  have hhr := map_ne_nil (fun r => r.heart_rate) data h
  have hsys := map_ne_nil (fun r => r.blood_pressure_systolic) data h
  have hglu := map_ne_nil (fun r => r.glucose_level) data h
  refine ⟨?_, ?_, ?_, ?_⟩
  · simp only [calculate_statistics]
    rw [meanFormat1_eq_fp64refMean _ hhr, meanFormat1_eq_fp64refMean _ hsys,
      meanFormat1_eq_fp64refMean _ hglu]
  · show oneDecimalAfterPoint (meanFormat1 (data.map (·.heart_rate))) = true
    rw [meanFormat1_eq_fp64refMean _ hhr]
    exact renderTenths_oneDecimal _
  · show oneDecimalAfterPoint
        (meanFormat1 (data.map (·.blood_pressure_systolic))) = true
    rw [meanFormat1_eq_fp64refMean _ hsys]
    exact renderTenths_oneDecimal _
  · show oneDecimalAfterPoint (meanFormat1 (data.map (·.glucose_level))) = true
    rw [meanFormat1_eq_fp64refMean _ hglu]
    exact renderTenths_oneDecimal _

/-- Witness for C1 at the scenario A dataset: two rows with heart rates
80 and 100 give `avg_heart_rate = "90.0"`. -/
theorem claim_C1_statistics_mean_witness :
    (calculate_statistics dataA
        = { avg_heart_rate :=
              formatRat1 (float64Round (refMean (dataA.map (·.heart_rate))))
            avg_systolic_bp :=
              formatRat1 (float64Round
                (refMean (dataA.map (·.blood_pressure_systolic))))
            avg_glucose :=
              formatRat1 (float64Round (refMean (dataA.map (·.glucose_level)))) }) ∧
    (calculate_statistics dataA).avg_heart_rate = "90.0" :=
  ⟨(claim_C1_statistics_mean dataA (by decide)).1, by decide⟩

/-- Claim C2: `find_abnormal_readings` returns three independent counts
with strict thresholds; a row exactly at a threshold is not counted, and
a one-row dataset with systolic exactly 130 yields count 0. -/
theorem claim_C2_strict_thresholds (data : List Reading) :
    find_abnormal_readings data
        = { high_heart_rate := (data.filter (fun r => 90 < r.heart_rate)).length
            high_blood_pressure :=
              (data.filter (fun r => 130 < r.blood_pressure_systolic)).length
            high_glucose :=
              (data.filter (fun r => 110 < r.glucose_level)).length } ∧
      find_abnormal_readings (data ++ [rowAllThresholds])
        = find_abnormal_readings data ∧
      (find_abnormal_readings [row130]).high_blood_pressure = 0 := by
  refine ⟨?_, ?_, by decide⟩
  · simp only [find_abnormal_readings, maskSum_map]
  · exact find_abnormal_append_threshold data rowAllThresholds
      (by decide) (by decide) (by decide)

/-- Counterexample to C3 as stated: on the empty dataset the aggregation
stage does not fail; each mean is NaN and is formatted as `"nan"`. -/
theorem claim_C3_empty_counterexample :
    calculate_statistics [] = ⟨"nan", "nan", "nan"⟩ := by decide

/-- Claim C3 as amended: a header-only file loads as the empty dataset,
aggregation then produces the string `"nan"` for every average, and the
pipeline completes and renders those NaN values into the report instead
of failing with an EmptyDatasetError-kind error. -/
theorem claim_C3_empty_nan :
    load_data (some csvHeader) = .ok ([] : List Reading) ∧
    calculate_statistics []
      = { avg_heart_rate := "nan", avg_systolic_bp := "nan"
          avg_glucose := "nan" } ∧
    runPipeline (some csvHeader)
      = .ok (generate_report ⟨"nan", "nan", "nan"⟩ ⟨0, 0, 0⟩ 0) :=
  ⟨by decide, by decide, by decide⟩

/-- Claim C4 counterexample: a row whose `heart_rate` field `abc` cannot
be coerced does not make the load fail; `np.genfromtxt` substitutes the
integer filling value `-1` and the load succeeds. -/
theorem claim_C4_bad_coercion_counterexample :
    load_data (some badCoercionFile)
      = .ok [⟨"P1", "2024-01-01", -1, 120, 80, some (986, 1), 100, "S1"⟩] := by
  decide

/-- Claim C4 as amended: the load fails when the file is absent and when
a row has the wrong field count (with no partial-row recovery), and when
the load fails `main` writes nothing — but an unconvertible numeric
field does not cause a failure. -/
theorem claim_C4_load_failure (fs : FileSystem)
    (hfail : (runPipeline (fs inputPath)).isOk = false) :
    load_data none = .error .fileNotFound ∧
    (∀ text : String, (dataRows text).any (fun r => r.length ≠ 8) = true →
      load_data (some text) = .error .wrongFieldCount) ∧
    main_run fs = fs ∧
    load_data (some sevenFieldFile) = .error .wrongFieldCount := by
  refine ⟨rfl, ?_, ?_, by decide⟩
  · intro text h
    simp only [load_data]
    rw [if_pos h]
  · unfold main_run
    cases hr : runPipeline (fs inputPath) with
    | error e => rfl
    | ok r =>
      rw [hr] at hfail
      simp [Except.isOk, Except.toBool] at hfail

/-- Witness for C4 at a file whose second row has 7 fields: the load
fails with the field-count error and the file system is unchanged. -/
theorem claim_C4_load_failure_witness :
    load_data (some sevenFieldFile) = .error .wrongFieldCount ∧
    main_run (fun p => if p = inputPath then some sevenFieldFile else none)
      = (fun p => if p = inputPath then some sevenFieldFile else none) :=
  ⟨(claim_C4_load_failure (fun _ => none) (by decide)).2.1
      sevenFieldFile (by decide),
   (claim_C4_load_failure _ (by decide)).2.2.1⟩

/-- Counterexample to C5 as stated: the rendered report is not exactly
the section 6 template — the trailing blank line holds a stray space. -/
theorem claim_C5_template_counterexample :
    generate_report ⟨"90.0", "120.0", "100.0"⟩ ⟨1, 0, 0⟩ 2
      ≠ spec6Render ⟨"90.0", "120.0", "100.0"⟩ ⟨1, 0, 0⟩ 2 := by decide

/-- Claim C5 as amended: `generate_report` renders the section 6
template with the values substituted verbatim, followed by one extra
space character: the final line consists of a single space and the text
has no terminating newline. -/
theorem claim_C5_template (s : StatisticsSummary) (a : AbnormalityCounts)
    (n : Nat) : generate_report s a n = spec6Render s a n ++ " " :=
  generate_report_eq_spec6 s a n

/-- Claim C6: for every dataset produced by the loader, the total
rendered in the report equals the number of rows of the parsed dataset,
and the pipeline report is exactly the rendering of that count together
with the statistics and counts of the parsed dataset. -/
theorem claim_C6_total_readings (contents : Option String)
    (data : List Reading) (h : load_data contents = .ok data) :
    parse_total_readings
        (generate_report (calculate_statistics data)
          (find_abnormal_readings data) data.length) = some data.length ∧
    runPipeline contents
      = .ok (generate_report (calculate_statistics data)
          (find_abnormal_readings data) data.length) := by
  refine ⟨parse_total_generate _ _ _, ?_⟩
  unfold runPipeline
  rw [h]
  rfl

/-- Witness for C6 at the scenario A file, whose parsed dataset has two
rows. -/
theorem claim_C6_total_readings_witness :
    parse_total_readings
        (generate_report (calculate_statistics dataA)
          (find_abnormal_readings dataA) dataA.length) = some dataA.length :=
  (claim_C6_total_readings (some scenarioAFile) dataA (by decide)).1

/-- Claim C7: re-parsing the `- Total readings:` line of a report
generated with total `n` yields exactly `n`, for every `n` and every
statistics and counts dictionary. -/
theorem claim_C7_total_roundtrip (n : Nat) (s : StatisticsSummary)
    (a : AbnormalityCounts) :
    parse_total_readings (generate_report s a n) = some n :=
  parse_total_generate s a n

/-- Claim C8: running the pipeline twice on an unchanged input produces
the same file system (byte-identical output), and the output write
truncates: whatever was previously stored at the output path, a
successful run leaves exactly the new report there. -/
theorem claim_C8_idempotent (fs : FileSystem) :
    main_run (main_run fs) = main_run fs ∧
    (∀ (prev report : String), runPipeline (fs inputPath) = .ok report →
      main_run (save_report fs prev outputPath) outputPath = some report) := by
  have hio : ¬ (inputPath = outputPath) := by decide
  constructor
  · cases h : runPipeline (fs inputPath) with
    | error e =>
      have h1 : main_run fs = fs := by unfold main_run; rw [h]
      rw [h1, h1]
    | ok r =>
      have h1 : main_run fs = save_report fs r outputPath := by
        unfold main_run; rw [h]
      have h2 : (save_report fs r outputPath) inputPath = fs inputPath := by
        unfold save_report; rw [if_neg hio]
      rw [h1]
      unfold main_run
      rw [h2, h]
      funext p
      unfold save_report
      by_cases hp : p = outputPath <;> simp [hp]
  · intro prev report h
    have h2 : (save_report fs prev outputPath) inputPath = fs inputPath := by
      unfold save_report; rw [if_neg hio]
    unfold main_run
    rw [h2, h]
    show save_report (save_report fs prev outputPath) report outputPath
        outputPath = some report
    unfold save_report
    rw [if_pos rfl]

/-- Witness for C8 at the scenario A file with stale prior output. -/
theorem claim_C8_idempotent_witness :
    main_run (main_run fsA) = main_run fsA ∧
    main_run (save_report fsA "stale" outputPath) outputPath
      = some (generate_report (calculate_statistics dataA)
          (find_abnormal_readings dataA) dataA.length) :=
  ⟨(claim_C8_idempotent fsA).1,
   (claim_C8_idempotent fsA).2 "stale" _ (by decide)⟩

/-- Claim C9: the pipeline's only side effect after the load is the
single write at the output path — every other path is untouched — and
the loaded dataset feeds the aggregator, the classifier, and the
row count unchanged. -/
theorem claim_C9_read_only :
    (∀ (fs : FileSystem) (p : String), p ≠ outputPath →
      main_run fs p = fs p) ∧
    (∀ (contents : Option String) (data : List Reading),
      load_data contents = .ok data →
      runPipeline contents
        = .ok (generate_report (calculate_statistics data)
            (find_abnormal_readings data) data.length)) := by
  constructor
  · intro fs p hp
    unfold main_run
    cases h : runPipeline (fs inputPath) with
    | error e => rfl
    | ok r =>
      show save_report fs r outputPath p = fs p
      unfold save_report
      rw [if_neg hp]
  · intro c d h
    unfold runPipeline
    rw [h]
    rfl

/-- Witness for C9: on an empty file system the failed run leaves the
input path untouched, and the scenario A load feeds the report. -/
theorem claim_C9_read_only_witness :
    main_run (fun _ => none) inputPath = none ∧
    runPipeline (some scenarioAFile)
      = .ok (generate_report (calculate_statistics dataA)
          (find_abnormal_readings dataA) dataA.length) :=
  ⟨claim_C9_read_only.1 (fun _ => none) inputPath (by decide),
   claim_C9_read_only.2 (some scenarioAFile) dataA (by decide)⟩

/-- Claim C10: `%.1f` applies round-half-to-even to the exact value of
the underlying float64 mean: `formatMean1` equals the half-even decimal
rounding `formatRat1` of the binary64-rounded mean, and not
round-half-away-from-zero: the binary64-exact tie mean 90.25 formats as
`90.2` while half away from zero would give `90.3`; and the rounding
acts on the floating-point mean, not on the exact decimal: the
non-representable decimal tie 90.35 prints `90.3`. -/
theorem claim_C10_half_even (S : ℤ) (N : ℕ) (hN : 0 < N) :
    formatMean1 S N = formatRat1 (float64Round ((S : ℚ) / (N : ℚ))) ∧
    (calculate_statistics tieData).avg_heart_rate = "90.2" ∧
    formatMean1Away 361 4 = "90.3" ∧
    (calculate_statistics data20).avg_heart_rate = "90.3" :=
  ⟨formatMean1_eq_fp64 S N hN, by decide, by decide, by decide⟩

/-- Witness for C10 at the tie mean 361 / 4 = 90.25. -/
theorem claim_C10_half_even_witness :
    formatMean1 361 4
      = formatRat1 (float64Round (((361 : ℤ) : ℚ) / ((4 : ℕ) : ℚ))) :=
  (claim_C10_half_even 361 4 (by decide)).1

end HealthData
